import Mathlib

/-!
Verification of the code-mode execution sandbox (`src/index.ts`).

The development shallowly embeds the core of `CodeExecutionSandbox`:

* JSON-serializable values crossing the host/isolate boundary (`JValue`,
  with JavaScript's `undefined` modelled as `Option.none` of `JSVal`);
* the formatter `formatExecutionResult` (source lines 169-196);
* the constructor defaults of `CodeExecutionSandbox` (lines 32-36) and the
  memory-limit computation of `execute` (line 39);
* the event-loop behaviour of `execute` (lines 41-162) as a transition
  system: the host callbacks installed by `execute` (the wall timer, the
  success and failure references, the catch block, and the per-capability
  bridge wrapper) become events, and each handler body becomes one case of
  a `step` function over an explicit state carrying the `finished` flag,
  the execution log, the isolate-disposal state and the settled outcome.

Numbers are modelled as integers (the scripts and scenarios at issue use
only integral values; IEEE-754 specifics are out of scope).
-/

/-! ## JSON-serializable boundary values -/

mutual

/-- JSON-serializable value copied across the host/isolate boundary.
JavaScript `null` is `JValue.null`; `undefined` is represented one level
up, by `Option.none` of `JSVal`. -/
inductive JValue where
  | null
  | bool (b : Bool)
  | num (n : Int)
  | str (s : String)
  | arr (xs : JList)
  | obj (fs : JFields)

/-- List of JSON values (array elements / argument lists). -/
inductive JList where
  | nil
  | cons (v : JValue) (tl : JList)

/-- Ordered fields of a JSON object. -/
inductive JFields where
  | nil
  | cons (k : String) (v : JValue) (tl : JFields)

end

/-- JavaScript value that may additionally be `undefined` (`none`). -/
def JSVal : Type := Option JValue

/-- Escape of a single character inside a JSON string literal, as
`JSON.stringify` produces it. -/
def escapeChar (c : Char) : String :=
  if c = '"' then "\\\""
  else if c = '\\' then "\\\\"
  else if c = '\n' then "\\n"
  else if c = '\t' then "\\t"
  else if c = '\r' then "\\r"
  else if c.toNat < 32 then "\\u" ++ (Nat.toDigits 16 c.toNat).foldl (fun a d => a ++ String.singleton d) "00"
  else String.singleton c

/-- JSON string literal with surrounding quotes, as `JSON.stringify`. -/
def escapeString (s : String) : String :=
  "\"" ++ String.join (s.toList.map escapeChar) ++ "\""

mutual

/-- Model of `JSON.stringify` on serializable values (no spacing, fields
in insertion order, strings quoted and escaped). -/
def jsonStringify : JValue → String
  | .null => "null"
  | .bool true => "true"
  | .bool false => "false"
  | .num n => toString n
  | .str s => escapeString s
  | .arr xs => "[" ++ String.intercalate "," (jsonItems xs) ++ "]"
  | .obj fs => "\x7b" ++ String.intercalate "," (jsonProps fs) ++ "\x7d"

/-- Rendered elements of a JSON array. -/
def jsonItems : JList → List String
  | .nil => []
  | .cons v tl => jsonStringify v :: jsonItems tl

/-- Rendered `key:value` pairs of a JSON object. -/
def jsonProps : JFields → List String
  | .nil => []
  | .cons k v tl => (escapeString k ++ ":" ++ jsonStringify v) :: jsonProps tl

end

/-! ## The outcome formatter (`formatExecutionResult`, lines 169-196) -/

/-- One record of the `executionLog` array: `{ fn, args, result }`, where
`args` is the argument array of the capability call and `result` is either
the copied return value or the string `"Error: <message>"`. -/
structure LogEntry where
  fn : String
  args : JList
  result : JSVal

/-- Rendering used for both a log entry's `result` and the final result:
`typeof v === 'string' ? v : JSON.stringify(v)`, with `undefined`
rendering as the text `"undefined"` (template-literal behaviour). -/
def renderValue (v : JSVal) : String :=
  match v with
  | none => "undefined"
  | some (.str s) => s
  | some w => jsonStringify w

/-- Line pushed for one log entry (line 180 of the source). The separator
between the call and its outcome is the literal three-character sequence
U+00E2 U+2020 U+2019 (`â†’`, a mojibake-encoded rightwards arrow) exactly
as it appears in the source bytes. -/
def entryLine (e : LogEntry) : String :=
  "  " ++ e.fn ++ "(" ++ jsonStringify (JValue.arr e.args) ++ ")" ++ " â†’ " ++ renderValue e.result

/-- Truthiness of the optional `error` string parameter: JavaScript
`if (error)` is false for both `undefined` and the empty string. -/
def errTruthy (error : Option String) : Bool :=
  match error with
  | none => false
  | some e => !(e == "")

/-- Guard of the `Final result:` line:
`finalResult !== undefined && finalResult !== null`. -/
def jsPresent (v : JSVal) : Bool :=
  match v with
  | none => false
  | some .null => false
  | some _ => true

/-- Model of `Array.prototype.join('\n')`. -/
def joinLines : List String → String
  | [] => ""
  | [l] => l
  | l :: ls => l ++ "\n" ++ joinLines ls

/-- Model of `CodeExecutionSandbox.formatExecutionResult` (lines 169-196):
push the trace header, one line per log entry and a blank separator when
the log is non-empty, then `Script error: <error>` when `error` is truthy,
else `Final result: <rendered>` when the final result is neither
`undefined` nor `null`, and join with newlines. -/
def formatExecutionResult (log : List LogEntry) (finalResult : JSVal) (error : Option String) : String :=
  let lines : List String := []
  let lines := if log.length > 0 then
      (log.foldl (fun acc e => acc ++ [entryLine e]) (lines ++ ["Execution trace:"])) ++ [""]
    else lines
  let lines :=
    if errTruthy error then lines ++ ["Script error: " ++ error.getD ""]
    else if jsPresent finalResult then lines ++ ["Final result: " ++ renderValue finalResult]
    else lines
  joinLines lines

/-- Specification-level view of the trace block: header, one rendered
line per entry in order, one blank separator line; nothing when empty. -/
def traceLines (log : List LogEntry) : List String :=
  match log with
  | [] => []
  | _ => "Execution trace:" :: (log.map entryLine ++ [""])

/-- Specification-level view of the terminal line: at most one of the
`Script error:` / `Final result:` lines. -/
def finalLines (finalResult : JSVal) (error : Option String) : List String :=
  if errTruthy error then ["Script error: " ++ error.getD ""]
  else if jsPresent finalResult then ["Final result: " ++ renderValue finalResult]
  else []

/-! ## Sandbox configuration (constructor, lines 32-36; limit, line 39) -/

/-- Nested `sandbox` options object of `CodeModeOptions`. -/
structure SandboxOptions where
  allowConsole : Option Bool
  maxMemory : Option Nat

/-- The fields of `CodeModeOptions` the sandbox constructor reads. -/
structure CodeModeOptions where
  timeout : Option Nat
  sandbox : Option SandboxOptions

/-- JavaScript `x || d` on an optional number: the default replaces both
`undefined` and the falsy value `0`. -/
def jsOrNat (x : Option Nat) (d : Nat) : Nat :=
  match x with
  | none => d
  | some n => if n = 0 then d else n

/-- Sandbox state set up by the `CodeExecutionSandbox` constructor. -/
structure SandboxState where
  timeout : Nat
  allowConsole : Bool
  maxMemory : Nat

/-- Model of the `CodeExecutionSandbox` constructor (lines 32-36):
`timeout = options.timeout || 30000`,
`allowConsole = options.sandbox?.allowConsole ?? true`,
`maxMemory = options.sandbox?.maxMemory || 128 * 1024 * 1024`. -/
def mkSandbox (options : CodeModeOptions) : SandboxState :=
  { timeout := jsOrNat options.timeout 30000
    allowConsole := (options.sandbox.bind (fun s => s.allowConsole)).getD true
    maxMemory := jsOrNat (options.sandbox.bind (fun s => s.maxMemory)) (128 * 1024 * 1024) }

/-- Memory ceiling handed to the isolate (line 39):
`Math.max(8, Math.ceil(this.maxMemory / (1024 * 1024)))` in MiB. -/
def memoryLimitMb (maxMemory : Nat) : Nat :=
  max 8 ((maxMemory + (1024 * 1024 - 1)) / (1024 * 1024))

/-- Effective isolate memory ceiling for a configured `maxMemoryBytes`
option (constructor default composed with the limit computation). -/
def effectiveMemoryLimitMb (configured : Option Nat) : Nat :=
  memoryLimitMb (jsOrNat configured (128 * 1024 * 1024))

/-- Ceiling as the specification's words describe it: `maxMemoryBytes`
rounded up to whole MiB with a minimum of 8 MiB (stated for comparison
with the code's `effectiveMemoryLimitMb`). -/
def specMemoryCeilingMb (maxMemoryBytes : Nat) : Nat :=
  max 8 ((maxMemoryBytes + (1024 * 1024 - 1)) / (1024 * 1024))

/-- Console surface installed into the isolate (lines 62-79): forwarding
shims when `allowConsole` is true, no-op `log`/`error`/`warn` otherwise. -/
inductive ConsoleMode where
  | forwardToHost
  | noop

/-- Which console shim `execute` installs for a given `allowConsole`. -/
def consoleSetup (allowConsole : Bool) : ConsoleMode :=
  if allowConsole then ConsoleMode.forwardToHost else ConsoleMode.noop

/-! ## The `execute` event loop (lines 41-162) as a transition system -/

/-- Host view of a value thrown by a capability or by the script:
its JavaScript truthiness, whether it is nullish (for the `?.` access),
its `message` property when present, and its `String(e)` rendering. -/
structure JSErrorVal where
  truthy : Bool
  nullish : Bool
  message : Option String
  stringRep : String

/-- Message the bridge wrapper extracts on capability failure (line 110):
`error?.message || String(error)`. -/
def bridgeErrorMsg (e : JSErrorVal) : String :=
  match if e.nullish then none else e.message with
  | some m => if m = "" then e.stringRep else m
  | none => e.stringRep

/-- Message the script wrapper extracts in its catch (line 126):
`e && e.message ? e.message : String(e)`. -/
def wrapperErrorMsg (e : JSErrorVal) : String :=
  if e.truthy then
    match e.message with
    | some m => if m = "" then e.stringRep else m
    | none => e.stringRep
  else e.stringRep

/-- Settled outcome of the promise returned by `execute`. -/
inductive Outcome where
  | resolved (s : String)
  | rejected (s : String)

/-- State of one in-flight `execute` call: the `finished` settle-once
flag, whether the isolate has been disposed, how many times `cleanup` ran,
whether `clearTimeout(wallTimer)` was called, the `executionLog`, and the
settled outcome of the returned promise (`none` while pending). -/
structure ExecState where
  finished : Bool
  isolateDisposed : Bool
  cleanupCalls : Nat
  timerCleared : Bool
  log : List LogEntry
  outcome : Option Outcome

/-- Model of `isolated-vm`'s `Isolate.dispose`: fails when the isolate is
already disposed, otherwise disposes it. -/
def ivmDispose (alreadyDisposed : Bool) : Except String Unit :=
  if alreadyDisposed then Except.error "Isolate is already disposed" else Except.ok ()

/-- Model of `cleanup` (lines 48-50): `try { isolate.dispose(); } catch {}`.
A failure of the underlying dispose is swallowed, so the function is total
and the isolate is disposed afterwards in every case. -/
def cleanup (s : ExecState) : ExecState :=
  match ivmDispose s.isolateDisposed with
  | Except.ok _ => { s with isolateDisposed := true, cleanupCalls := s.cleanupCalls + 1 }
  | Except.error _ => { s with cleanupCalls := s.cleanupCalls + 1 }

/-- Events delivered to the host event loop during one `execute` call,
one per callback installed by the source: the wall timer firing (lines
51-57), the success reference (lines 131-140), the failure reference
(lines 141-150), the catch block around setup (lines 152-159), and the
completion of one bridged capability call (lines 102-117). -/
inductive Event where
  | timeoutFire
  | successSignal (res : JSVal)
  | failureSignal (e : JSErrorVal)
  | setupError (msg : String)
  | capComplete (name : String) (args : JList) (r : Except JSErrorVal JSVal)

/-- Terminal events are the four that can settle the promise; a
capability completion only touches the log. -/
def Event.isTerminal : Event → Bool
  | .timeoutFire => true
  | .successSignal _ => true
  | .failureSignal _ => true
  | .setupError _ => true
  | .capComplete _ _ _ => false

/-- One event-loop step of `execute`: each branch is the body of the
corresponding source callback, including its `finished` guard (or, for
the capability bridge, the absence of one). -/
def step (s : ExecState) (ev : Event) : ExecState :=
  match ev with
  | .timeoutFire =>
      if s.finished then s else
        let s := { s with finished := true }
        let s := cleanup s
        { s with outcome := some (Outcome.rejected "Code execution timed out") }
  | .successSignal res =>
      if s.finished then s else
        let s := { s with finished := true, timerCleared := true }
        let s := cleanup s
        { s with outcome := some (Outcome.resolved (formatExecutionResult s.log res none)) }
  | .failureSignal e =>
      if s.finished then s else
        let msg := wrapperErrorMsg e
        let s := { s with finished := true, timerCleared := true }
        let s := cleanup s
        { s with outcome := some (Outcome.rejected (formatExecutionResult s.log (some JValue.null) (some msg))) }
  | .setupError msg =>
      if s.finished then s else
        let s := { s with finished := true, timerCleared := true }
        let s := cleanup s
        { s with outcome := some (Outcome.rejected msg) }
  | .capComplete name args r =>
      match r with
      | Except.ok v => { s with log := s.log ++ [⟨name, args, v⟩] }
      | Except.error e => { s with log := s.log ++ [⟨name, args, some (JValue.str ("Error: " ++ bridgeErrorMsg e))⟩] }

/-- State at the start of `execute`: not finished, isolate live, no
cleanup yet, timer armed, empty log, promise pending. -/
def initState : ExecState :=
  { finished := false, isolateDisposed := false, cleanupCalls := 0,
    timerCleared := false, log := [], outcome := none }

/-- State after `execute` has processed a sequence of events. -/
def run (events : List Event) : ExecState :=
  events.foldl step initState

/-! ## Helper lemmas -/

lemma cleanup_isolateDisposed (s : ExecState) : (cleanup s).isolateDisposed = true := by
  unfold cleanup ivmDispose
  cases h : s.isolateDisposed <;> simp [h]

lemma cleanup_cleanupCalls (s : ExecState) : (cleanup s).cleanupCalls = s.cleanupCalls + 1 := by
  unfold cleanup ivmDispose
  cases h : s.isolateDisposed <;> simp [h]

lemma cleanup_finished (s : ExecState) : (cleanup s).finished = s.finished := by
  unfold cleanup ivmDispose
  cases h : s.isolateDisposed <;> simp [h]

lemma cleanup_log (s : ExecState) : (cleanup s).log = s.log := by
  unfold cleanup ivmDispose
  cases h : s.isolateDisposed <;> simp [h]

lemma cleanup_outcome (s : ExecState) : (cleanup s).outcome = s.outcome := by
  unfold cleanup ivmDispose
  cases h : s.isolateDisposed <;> simp [h]

lemma step_of_finished_terminal (s : ExecState) (e : Event)
    (hf : s.finished = true) (he : e.isTerminal = true) : step s e = s := by
  cases e <;> simp_all [step, Event.isTerminal]

lemma step_of_finished (s : ExecState) (e : Event) (hf : s.finished = true) :
    (step s e).finished = true ∧ (step s e).outcome = s.outcome ∧
    (step s e).cleanupCalls = s.cleanupCalls ∧ (step s e).isolateDisposed = s.isolateDisposed := by
  cases e with
  | capComplete n a r => cases r <;> simp [step, hf]
  | _ => simp [step, hf]

lemma foldl_of_finished (s : ExecState) (events : List Event) (hf : s.finished = true) :
    (events.foldl step s).finished = true ∧ (events.foldl step s).outcome = s.outcome ∧
    (events.foldl step s).cleanupCalls = s.cleanupCalls ∧
    (events.foldl step s).isolateDisposed = s.isolateDisposed := by
  induction events generalizing s with
  | nil => exact ⟨hf, rfl, rfl, rfl⟩
  | cons e es ih =>
      obtain ⟨h1, h2, h3, h4⟩ := step_of_finished s e hf
      obtain ⟨g1, g2, g3, g4⟩ := ih (step s e) h1
      exact ⟨g1, g2.trans h2, g3.trans h3, g4.trans h4⟩

lemma step_nonterminal (s : ExecState) (e : Event) (he : e.isTerminal = false) :
    (step s e).finished = s.finished ∧ (step s e).outcome = s.outcome ∧
    (step s e).cleanupCalls = s.cleanupCalls ∧ (step s e).isolateDisposed = s.isolateDisposed := by
  cases e with
  | capComplete n a r => cases r <;> simp [step]
  | _ => simp [Event.isTerminal] at he

lemma foldl_nonterminal (s : ExecState) (events : List Event)
    (he : ∀ x ∈ events, x.isTerminal = false) :
    (events.foldl step s).finished = s.finished ∧ (events.foldl step s).outcome = s.outcome ∧
    (events.foldl step s).cleanupCalls = s.cleanupCalls ∧
    (events.foldl step s).isolateDisposed = s.isolateDisposed := by
  induction events generalizing s with
  | nil => exact ⟨rfl, rfl, rfl, rfl⟩
  | cons e es ih =>
      obtain ⟨h1, h2, h3, h4⟩ := step_nonterminal s e (he e (List.mem_cons_self e es))
      obtain ⟨g1, g2, g3, g4⟩ := ih (step s e) (fun x hx => he x (List.mem_cons_of_mem e hx))
      exact ⟨g1.trans h1, g2.trans h2, g3.trans h3, g4.trans h4⟩

lemma step_terminal_settles (s : ExecState) (e : Event)
    (hf : s.finished = false) (he : e.isTerminal = true) :
    (step s e).finished = true ∧ (step s e).outcome.isSome = true ∧
    (step s e).cleanupCalls = s.cleanupCalls + 1 ∧ (step s e).isolateDisposed = true := by
  cases e with
  | capComplete n a r => simp [Event.isTerminal] at he
  | timeoutFire =>
      refine ⟨?_, ?_, ?_, ?_⟩ <;>
        simp [step, hf, cleanup_finished, cleanup_cleanupCalls, cleanup_isolateDisposed]
  | successSignal res =>
      refine ⟨?_, ?_, ?_, ?_⟩ <;>
        simp [step, hf, cleanup_finished, cleanup_cleanupCalls, cleanup_isolateDisposed]
  | failureSignal err =>
      refine ⟨?_, ?_, ?_, ?_⟩ <;>
        simp [step, hf, cleanup_finished, cleanup_cleanupCalls, cleanup_isolateDisposed]
  | setupError msg =>
      refine ⟨?_, ?_, ?_, ?_⟩ <;>
        simp [step, hf, cleanup_finished, cleanup_cleanupCalls, cleanup_isolateDisposed]

lemma step_any_terminal_finished (s : ExecState) (e : Event) (he : e.isTerminal = true) :
    (step s e).finished = true := by
  cases hf : s.finished with
  | true => exact (step_of_finished s e hf).1
  | false => exact (step_terminal_settles s e hf he).1

lemma foldl_finished_of_terminal_mem (s : ExecState) (events : List Event)
    (hmem : ∃ e ∈ events, e.isTerminal = true) :
    (events.foldl step s).finished = true := by
  induction events generalizing s with
  | nil => obtain ⟨e, he, _⟩ := hmem; exact absurd he (List.not_mem_nil e)
  | cons x xs ih =>
      obtain ⟨e, he, ht⟩ := hmem
      rcases List.mem_cons.mp he with rfl | hxs
      · have hx : (step s e).finished = true := step_any_terminal_finished s e ht
        exact (foldl_of_finished (step s e) xs hx).1
      · exact ih (step s x) ⟨e, hxs, ht⟩

/-- Invariant tying disposal and the cleanup counter to the settle flag. -/
def StateInv (s : ExecState) : Prop :=
  s.cleanupCalls = (if s.finished then 1 else 0) ∧ s.isolateDisposed = s.finished

lemma step_preserves_inv (s : ExecState) (e : Event) (h : StateInv s) :
    StateInv (step s e) := by
  obtain ⟨hc, hd⟩ := h
  cases ht : e.isTerminal with
  | false =>
      obtain ⟨h1, _, h3, h4⟩ := step_nonterminal s e ht
      exact ⟨by rw [h3, h1, hc], by rw [h4, h1, hd]⟩
  | true =>
      cases hf : s.finished with
      | true =>
          obtain ⟨h1, _, h3, h4⟩ := step_of_finished s e hf
          exact ⟨by rw [h3, h1, hc, hf], by rw [h4, h1, hd, hf]⟩
      | false =>
          obtain ⟨h1, _, h3, h4⟩ := step_terminal_settles s e hf ht
          refine ⟨?_, by rw [h4, h1]⟩
          rw [h3, h1, hc, hf]
          simp

lemma run_inv (events : List Event) : StateInv (run events) := by
  have h0 : StateInv initState := ⟨rfl, rfl⟩
  unfold run
  generalize initState = s at h0 ⊢
  induction events generalizing s with
  | nil => exact h0
  | cons e es ih => exact ih (step s e) (step_preserves_inv s e h0)

lemma push_foldl_eq_map (log : List LogEntry) (acc : List String) :
    log.foldl (fun acc e => acc ++ [entryLine e]) acc = acc ++ log.map entryLine := by
  induction log generalizing acc with
  | nil => simp
  | cons x xs ih => simp [ih]

lemma formatExecutionResult_eq_join (log : List LogEntry) (res : JSVal) (err : Option String) :
    formatExecutionResult log res err = joinLines (traceLines log ++ finalLines res err) := by
  unfold formatExecutionResult traceLines finalLines
  cases log with
  | nil =>
      cases herr : errTruthy err <;> cases hres : jsPresent res <;> simp [herr, hres]
  | cons x xs =>
      cases herr : errTruthy err <;> cases hres : jsPresent res <;>
        simp [push_foldl_eq_map, herr, hres]

lemma cleanup_of_disposed (s : ExecState) (h : s.isolateDisposed = true) :
    cleanup s = { s with cleanupCalls := s.cleanupCalls + 1 } := by
  unfold cleanup ivmDispose
  simp [h]

lemma run_append_singleton (pre : List Event) (e : Event) :
    run (pre ++ [e]) = step (run pre) e := by
  unfold run
  rw [List.foldl_append]
  rfl

/-! ## Claim theorems -/

/-- C1: for every schedule of `execute`'s callbacks that contains a
terminal event (normal completion, script failure, timeout, or setup
error), `cleanup` — and with it `isolate.dispose` — has run exactly once
by the end, the isolate is disposed, and disposing more than once is a
safe no-op: a second `cleanup` never fails and changes nothing but the
call counter. -/
theorem execute_disposes_exactly_once (events : List Event)
    (hterm : ∃ e ∈ events, e.isTerminal = true) :
    (run events).cleanupCalls = 1 ∧ (run events).isolateDisposed = true ∧
    (∀ s : ExecState, (cleanup s).isolateDisposed = true ∧
      cleanup (cleanup s) = { cleanup s with cleanupCalls := (cleanup s).cleanupCalls + 1 }) := by
  have hfin : (run events).finished = true := foldl_finished_of_terminal_mem initState events hterm
  obtain ⟨hc, hd⟩ := run_inv events
  refine ⟨by rw [hc, hfin]; rfl, by rw [hd, hfin], fun s => ⟨cleanup_isolateDisposed s, ?_⟩⟩
  exact cleanup_of_disposed (cleanup s) (cleanup_isolateDisposed s)

/-- Witness for C1 at the timeout exit path. -/
theorem execute_disposes_exactly_once_witness :
    (∃ e ∈ [Event.timeoutFire], e.isTerminal = true) ∧
    ((run [Event.timeoutFire]).cleanupCalls = 1 ∧
     (run [Event.timeoutFire]).isolateDisposed = true ∧
     (∀ s : ExecState, (cleanup s).isolateDisposed = true ∧
       cleanup (cleanup s) = { cleanup s with cleanupCalls := (cleanup s).cleanupCalls + 1 })) :=
  ⟨⟨Event.timeoutFire, List.mem_cons_self _ _, rfl⟩,
   execute_disposes_exactly_once [Event.timeoutFire]
     ⟨Event.timeoutFire, List.mem_cons_self _ _, rfl⟩⟩

/-- C2: the first terminal signal settles the promise (the outcome goes
from pending to settled and cleanup runs exactly then), any schedule
continuing past it leaves the settled outcome and the cleanup count
unchanged, and a terminal signal arriving at an already-finished state is
discarded with no state change at all. -/
theorem execute_settles_once (pre post : List Event) (e : Event)
    (hpre : ∀ x ∈ pre, x.isTerminal = false) (he : e.isTerminal = true) :
    (run pre).outcome = none ∧
    ((step (run pre) e).outcome).isSome = true ∧
    (run (pre ++ e :: post)).outcome = (step (run pre) e).outcome ∧
    (run (pre ++ e :: post)).cleanupCalls = (step (run pre) e).cleanupCalls ∧
    (∀ s : ExecState, s.finished = true → ∀ t : Event, t.isTerminal = true → step s t = s) := by
  have hpre' := foldl_nonterminal initState pre hpre
  have hfin : (run pre).finished = false := hpre'.1
  have hsettle := step_terminal_settles (run pre) e hfin he
  have hrun : run (pre ++ e :: post) = post.foldl step (step (run pre) e) := by
    unfold run
    rw [List.foldl_append]
    rfl
  have hrest := foldl_of_finished (step (run pre) e) post hsettle.1
  exact ⟨hpre'.2.1, hsettle.2.1, by rw [hrun]; exact hrest.2.1, by rw [hrun]; exact hrest.2.2.1,
    fun s hs t ht => step_of_finished_terminal s t hs ht⟩

/-- Witness for C2: success signal first, timeout discarded after. -/
theorem execute_settles_once_witness :
    (∀ x ∈ ([] : List Event), x.isTerminal = false) ∧
    (Event.successSignal none).isTerminal = true ∧
    ((run []).outcome = none ∧
     ((step (run []) (Event.successSignal none)).outcome).isSome = true ∧
     (run ([] ++ Event.successSignal none :: [Event.timeoutFire])).outcome
       = (step (run []) (Event.successSignal none)).outcome ∧
     (run ([] ++ Event.successSignal none :: [Event.timeoutFire])).cleanupCalls
       = (step (run []) (Event.successSignal none)).cleanupCalls ∧
     (∀ s : ExecState, s.finished = true → ∀ t : Event, t.isTerminal = true → step s t = s)) :=
  ⟨fun x hx => absurd hx (List.not_mem_nil x), rfl,
   execute_settles_once [] [Event.timeoutFire] (Event.successSignal none)
     (fun x hx => absurd hx (List.not_mem_nil x)) rfl⟩

/-- C3 counterexample: the timeout settles the execution (outcome fixed,
`finished` set, log still empty), yet a capability completion delivered
afterwards appends a log entry — the bridge wrapper pushes to
`executionLog` without consulting the `finished` flag. -/
theorem late_capability_append_counterexample :
    (run [Event.timeoutFire]).finished = true ∧
    (run [Event.timeoutFire]).outcome = some (Outcome.rejected "Code execution timed out") ∧
    (run [Event.timeoutFire]).log = [] ∧
    (run [Event.timeoutFire,
          Event.capComplete "getWeather" JList.nil (Except.ok (some (JValue.num 65)))]).log
      = [⟨"getWeather", JList.nil, some (JValue.num 65)⟩] :=
  ⟨rfl, rfl, rfl, rfl⟩

/-- C3 (amended): a capability call completing after settlement does
append its log entry, but it cannot resurrect the settled outcome: the
outcome, the `finished` flag and the cleanup count are unchanged. -/
theorem late_capability_cannot_resurrect (s : ExecState) (hs : s.finished = true)
    (n : String) (a : JList) (r : Except JSErrorVal JSVal) :
    (step s (Event.capComplete n a r)).log.length = s.log.length + 1 ∧
    (step s (Event.capComplete n a r)).outcome = s.outcome ∧
    (step s (Event.capComplete n a r)).finished = true ∧
    (step s (Event.capComplete n a r)).cleanupCalls = s.cleanupCalls := by
  cases r <;> simp [step, hs]

/-- Witness for the amended C3 at a settled timeout state. -/
theorem late_capability_cannot_resurrect_witness :
    (run [Event.timeoutFire]).finished = true ∧
    ((step (run [Event.timeoutFire])
        (Event.capComplete "f" JList.nil (Except.ok none))).log.length
      = (run [Event.timeoutFire]).log.length + 1 ∧
     (step (run [Event.timeoutFire])
        (Event.capComplete "f" JList.nil (Except.ok none))).outcome
      = (run [Event.timeoutFire]).outcome ∧
     (step (run [Event.timeoutFire])
        (Event.capComplete "f" JList.nil (Except.ok none))).finished = true ∧
     (step (run [Event.timeoutFire])
        (Event.capComplete "f" JList.nil (Except.ok none))).cleanupCalls
      = (run [Event.timeoutFire]).cleanupCalls) :=
  ⟨rfl, late_capability_cannot_resurrect (run [Event.timeoutFire]) rfl "f" JList.nil (Except.ok none)⟩

/-- C4 counterexample: a timeout firing after a capability call has been
logged rejects with the bare string `Code execution timed out`; the
accumulated trace is not part of the error, unlike the string the
formatter would have produced. -/
theorem timeout_error_omits_trace_counterexample :
    (run [Event.capComplete "getWeather" JList.nil (Except.ok (some (JValue.num 65))),
          Event.timeoutFire]).outcome
      = some (Outcome.rejected "Code execution timed out") ∧
    (run [Event.capComplete "getWeather" JList.nil (Except.ok (some (JValue.num 65))),
          Event.timeoutFire]).log
      = [⟨"getWeather", JList.nil, some (JValue.num 65)⟩] ∧
    formatExecutionResult [⟨"getWeather", JList.nil, some (JValue.num 65)⟩]
        (some JValue.null) (some "Code execution timed out")
      ≠ "Code execution timed out" :=
  ⟨rfl, rfl, by decide⟩

/-- C4 (amended): whenever the wall timer is the first terminal signal,
`execute` rejects with exactly the fixed message `Code execution timed
out` — unambiguously a timeout — while the accumulated trace stays in the
log and is not attached to the error. -/
theorem timeout_rejects_with_fixed_message (pre : List Event)
    (hpre : ∀ x ∈ pre, x.isTerminal = false) :
    (run (pre ++ [Event.timeoutFire])).outcome
      = some (Outcome.rejected "Code execution timed out") ∧
    (run (pre ++ [Event.timeoutFire])).log = (run pre).log := by
  have hfin : (run pre).finished = false := (foldl_nonterminal initState pre hpre).1
  rw [run_append_singleton]
  constructor
  · simp [step, hfin, cleanup_outcome]
  · simp [step, hfin, cleanup_log]

/-- Witness for the amended C4 with one logged capability call. -/
theorem timeout_rejects_with_fixed_message_witness :
    (∀ x ∈ [Event.capComplete "f" JList.nil (Except.ok (some (JValue.num 1)))],
      x.isTerminal = false) ∧
    ((run ([Event.capComplete "f" JList.nil (Except.ok (some (JValue.num 1)))]
        ++ [Event.timeoutFire])).outcome
      = some (Outcome.rejected "Code execution timed out") ∧
     (run ([Event.capComplete "f" JList.nil (Except.ok (some (JValue.num 1)))]
        ++ [Event.timeoutFire])).log
      = (run [Event.capComplete "f" JList.nil (Except.ok (some (JValue.num 1)))]).log) :=
  ⟨fun x hx => by rw [List.mem_singleton.mp hx]; rfl,
   timeout_rejects_with_fixed_message
     [Event.capComplete "f" JList.nil (Except.ok (some (JValue.num 1)))]
     (fun x hx => by rw [List.mem_singleton.mp hx]; rfl)⟩

/-- C5: a capability whose host function rejects with message `m` gets a
log entry whose outcome is the string `Error: m`, and when the script
does not catch the re-raised failure the execution rejects with the
formatted error string: the trace block followed by `Script error: m`. -/
theorem capability_failure_logged_and_reraised (n : String) (a : JList) (m rep : String)
    (hm : m ≠ "") :
    (run [Event.capComplete n a (Except.error ⟨true, false, some m, rep⟩),
          Event.failureSignal ⟨true, false, some m, rep⟩]).log
      = [⟨n, a, some (JValue.str ("Error: " ++ m))⟩] ∧
    (run [Event.capComplete n a (Except.error ⟨true, false, some m, rep⟩),
          Event.failureSignal ⟨true, false, some m, rep⟩]).outcome
      = some (Outcome.rejected (formatExecutionResult
          [⟨n, a, some (JValue.str ("Error: " ++ m))⟩] (some JValue.null) (some m))) ∧
    formatExecutionResult [⟨n, a, some (JValue.str ("Error: " ++ m))⟩]
        (some JValue.null) (some m)
      = joinLines ["Execution trace:",
          "  " ++ n ++ "(" ++ jsonStringify (JValue.arr a) ++ ")" ++ " â†’ " ++ ("Error: " ++ m),
          "", "Script error: " ++ m] := by
  refine ⟨?_, ?_, ?_⟩
  · simp [run, step, initState, cleanup, ivmDispose, bridgeErrorMsg, hm]
  · simp [run, step, initState, cleanup, ivmDispose, bridgeErrorMsg, wrapperErrorMsg, hm]
  · simp [formatExecutionResult, errTruthy, hm, entryLine, renderValue, joinLines]

/-- Witness for C5: scenario B, a capability rejecting with `boom`. -/
theorem capability_failure_logged_and_reraised_witness :
    "boom" ≠ "" ∧
    ((run [Event.capComplete "getWeather" JList.nil
             (Except.error ⟨true, false, some "boom", "Error: boom"⟩),
           Event.failureSignal ⟨true, false, some "boom", "Error: boom"⟩]).log
       = [⟨"getWeather", JList.nil, some (JValue.str ("Error: " ++ "boom"))⟩] ∧
     (run [Event.capComplete "getWeather" JList.nil
             (Except.error ⟨true, false, some "boom", "Error: boom"⟩),
           Event.failureSignal ⟨true, false, some "boom", "Error: boom"⟩]).outcome
       = some (Outcome.rejected (formatExecutionResult
           [⟨"getWeather", JList.nil, some (JValue.str ("Error: " ++ "boom"))⟩]
           (some JValue.null) (some "boom"))) ∧
     formatExecutionResult
         [⟨"getWeather", JList.nil, some (JValue.str ("Error: " ++ "boom"))⟩]
         (some JValue.null) (some "boom")
       = joinLines ["Execution trace:",
           "  " ++ "getWeather" ++ "(" ++ jsonStringify (JValue.arr JList.nil) ++ ")"
             ++ " â†’ " ++ ("Error: " ++ "boom"),
           "", "Script error: " ++ "boom"]) :=
  ⟨by decide,
   capability_failure_logged_and_reraised "getWeather" JList.nil "boom" "Error: boom"
     (by decide)⟩

/-- C6 counterexample: the separator between a call and its outcome is
the mojibake sequence `â†’` (U+00E2 U+2020 U+2019), not the ASCII arrow
`->` the claim states. -/
theorem trace_arrow_counterexample :
    formatExecutionResult [⟨"f", JList.nil, some (JValue.num 1)⟩] none none
      = "Execution trace:\n  f([]) â†’ 1\n" ∧
    formatExecutionResult [⟨"f", JList.nil, some (JValue.num 1)⟩] none none
      ≠ "Execution trace:\n  f([]) -> 1\n" :=
  ⟨rfl, by decide⟩

/-- C6 (amended): for a non-empty trace the output is the header line
`Execution trace:`, one line per entry in trace order of the form
`  <capability>(<json(args)>) â†’ <outcome>` (outcome raw when a string,
JSON otherwise), a blank separator line, then the terminal lines; for an
empty trace no header or entry lines are emitted. -/
theorem format_trace_block (log : List LogEntry) (res : JSVal) (err : Option String)
    (h : log ≠ []) :
    formatExecutionResult log res err
      = joinLines (("Execution trace:" :: (log.map entryLine ++ [""])) ++ finalLines res err) ∧
    (∀ e : LogEntry, entryLine e
      = "  " ++ e.fn ++ "(" ++ jsonStringify (JValue.arr e.args) ++ ")" ++ " â†’ "
          ++ renderValue e.result) ∧
    (∀ s, renderValue (some (JValue.str s)) = s) ∧
    (∀ v : JValue, (∀ s, v ≠ JValue.str s) → renderValue (some v) = jsonStringify v) ∧
    formatExecutionResult [] res err = joinLines (finalLines res err) := by
  refine ⟨?_, fun e => rfl, fun s => rfl, fun v hv => ?_, ?_⟩
  · rw [formatExecutionResult_eq_join]
    cases log with
    | nil => exact absurd rfl h
    | cons x xs => rfl
  · cases v with
    | str s => exact absurd rfl (hv s)
    | _ => rfl
  · rw [formatExecutionResult_eq_join]
    rfl

/-- Witness for the amended C6 on a one-entry trace. -/
theorem format_trace_block_witness :
    [(⟨"f", JList.nil, some (JValue.num 1)⟩ : LogEntry)] ≠ [] ∧
    (formatExecutionResult [⟨"f", JList.nil, some (JValue.num 1)⟩] none none
      = joinLines (("Execution trace:"
          :: ([(⟨"f", JList.nil, some (JValue.num 1)⟩ : LogEntry)].map entryLine ++ [""]))
          ++ finalLines none none) ∧
     (∀ e : LogEntry, entryLine e
       = "  " ++ e.fn ++ "(" ++ jsonStringify (JValue.arr e.args) ++ ")" ++ " â†’ "
           ++ renderValue e.result) ∧
     (∀ s, renderValue (some (JValue.str s)) = s) ∧
     (∀ v : JValue, (∀ s, v ≠ JValue.str s) → renderValue (some v) = jsonStringify v) ∧
     formatExecutionResult [] none none = joinLines (finalLines none none)) :=
  ⟨List.cons_ne_nil _ _,
   format_trace_block [⟨"f", JList.nil, some (JValue.num 1)⟩] none none
     (List.cons_ne_nil _ _)⟩

/-- C7 counterexample: a script returning the string `"hi"` yields the
final line `Final result: hi`, not the canonical JSON encoding
`Final result: "hi"`. -/
theorem final_result_string_raw_counterexample :
    (run [Event.successSignal (some (JValue.str "hi"))]).outcome
      = some (Outcome.resolved "Final result: hi") ∧
    "Final result: hi" ≠ "Final result: " ++ jsonStringify (JValue.str "hi") :=
  ⟨rfl, by decide⟩

/-- C7 (amended): a script returning a JSON-serializable `X` that is
neither a string nor `null`/`undefined` resolves to the final line
`Final result: <json(X)>`; a returned string is emitted raw after
`Final result: `; a returned `null` or `undefined` omits the final line
(the formatted output is empty). -/
theorem return_value_rendering (X : JValue) (hnull : X ≠ JValue.null)
    (hstr : ∀ s, X ≠ JValue.str s) :
    (run [Event.successSignal (some X)]).outcome
      = some (Outcome.resolved ("Final result: " ++ jsonStringify X)) ∧
    (∀ s, (run [Event.successSignal (some (JValue.str s))]).outcome
      = some (Outcome.resolved ("Final result: " ++ s))) ∧
    (run [Event.successSignal (some JValue.null)]).outcome = some (Outcome.resolved "") ∧
    (run [Event.successSignal none]).outcome = some (Outcome.resolved "") := by
  refine ⟨?_, fun s => rfl, rfl, rfl⟩
  cases X with
  | null => exact absurd rfl hnull
  | str s => exact absurd rfl (hstr s)
  | _ => rfl

/-- Witness for the amended C7: scenario A's returned object. -/
theorem return_value_rendering_witness :
    (JValue.obj (.cons "l" (.str "SF") .nil) ≠ JValue.null) ∧
    (∀ s, JValue.obj (.cons "l" (.str "SF") .nil) ≠ JValue.str s) ∧
    ((run [Event.successSignal (some (JValue.obj (.cons "l" (.str "SF") .nil)))]).outcome
      = some (Outcome.resolved ("Final result: "
          ++ jsonStringify (JValue.obj (.cons "l" (.str "SF") .nil)))) ∧
     (∀ s, (run [Event.successSignal (some (JValue.str s))]).outcome
       = some (Outcome.resolved ("Final result: " ++ s))) ∧
     (run [Event.successSignal (some JValue.null)]).outcome = some (Outcome.resolved "") ∧
     (run [Event.successSignal none]).outcome = some (Outcome.resolved "")) :=
  ⟨fun hcontra => JValue.noConfusion hcontra,
   fun _ hcontra => JValue.noConfusion hcontra,
   return_value_rendering (JValue.obj (.cons "l" (.str "SF") .nil))
     (fun hcontra => JValue.noConfusion hcontra)
     (fun _ hcontra => JValue.noConfusion hcontra)⟩

/-- C8 counterexample: with an error that is present but empty, the
formatter emits no `Script error:` line at all — `if (error)` is false on
the empty string — and an execution whose script throws an empty-message
value rejects with the empty formatted string. -/
theorem empty_error_final_line_counterexample :
    formatExecutionResult [] (some JValue.null) (some "") = "" ∧
    (run [Event.failureSignal ⟨false, false, none, ""⟩]).outcome
      = some (Outcome.rejected "") ∧
    ("" : String) ≠ "Script error: " :=
  ⟨rfl, rfl, by decide⟩

/-- C8 (amended): the output ends with at most one terminal line; a
non-empty error yields `Script error: <message>`, otherwise a present
non-`null`/`undefined` result yields `Final result: <rendered>`,
otherwise the line is omitted — so no output carries both lines, and an
empty error string behaves like an absent error. -/
theorem final_line_exactly_one (log : List LogEntry) (res : JSVal) (err : Option String) :
    formatExecutionResult log res err = joinLines (traceLines log ++ finalLines res err) ∧
    (finalLines res err).length ≤ 1 ∧
    (errTruthy err = true → finalLines res err = ["Script error: " ++ err.getD ""]) ∧
    (errTruthy err = false → jsPresent res = true →
      finalLines res err = ["Final result: " ++ renderValue res]) ∧
    (errTruthy err = false → jsPresent res = false → finalLines res err = []) := by
  refine ⟨formatExecutionResult_eq_join log res err, ?_, ?_, ?_, ?_⟩ <;>
    cases herr : errTruthy err <;> cases hres : jsPresent res <;>
      simp [finalLines, herr, hres]

/-- Witness for the amended C8, discharging each guard at a concrete
input. -/
theorem final_line_exactly_one_witness :
    (formatExecutionResult [] (some (JValue.num 7)) none
      = joinLines (traceLines [] ++ finalLines (some (JValue.num 7)) none)) ∧
    (finalLines (some (JValue.num 7)) none).length ≤ 1 ∧
    errTruthy none = false ∧ jsPresent (some (JValue.num 7)) = true ∧
    finalLines (some (JValue.num 7)) none = ["Final result: " ++ renderValue (some (JValue.num 7))] ∧
    errTruthy (some "x") = true ∧
    finalLines (some (JValue.num 7)) (some "x") = ["Script error: " ++ (some "x").getD ""] :=
  ⟨(final_line_exactly_one [] (some (JValue.num 7)) none).1,
   (final_line_exactly_one [] (some (JValue.num 7)) none).2.1,
   rfl, rfl,
   (final_line_exactly_one [] (some (JValue.num 7)) none).2.2.2.1 rfl rfl,
   rfl,
   (final_line_exactly_one [] (some (JValue.num 7)) (some "x")).2.2.1 rfl⟩

/-- C9 counterexample: a configured `maxMemoryBytes` of 0 is below 8 MiB,
yet the effective ceiling is the 128 MiB default (the constructor's `||`
replaces the falsy 0), not the claimed 8 MiB clamp. -/
theorem memory_ceiling_zero_counterexample :
    effectiveMemoryLimitMb (some 0) = 128 ∧ specMemoryCeilingMb 0 = 8 ∧ (128 : Nat) ≠ 8 :=
  ⟨rfl, rfl, by decide⟩

/-- C9 (amended): for every non-zero configured `maxMemoryBytes` the
effective ceiling is the value rounded up to whole MiB with a minimum of
8 MiB — in particular non-zero values below 8 MiB clamp to 8 MiB rather
than being rejected — while a configured 0 (or an absent option) takes
the 128 MiB default. -/
theorem memory_ceiling_amended (m : Nat) (hm : m ≠ 0) :
    effectiveMemoryLimitMb (some m) = specMemoryCeilingMb m ∧
    (m < 8 * 1024 * 1024 → effectiveMemoryLimitMb (some m) = 8) ∧
    effectiveMemoryLimitMb (some 0) = 128 ∧
    effectiveMemoryLimitMb none = 128 := by
  refine ⟨?_, fun hlt => ?_, rfl, rfl⟩
  · unfold effectiveMemoryLimitMb specMemoryCeilingMb memoryLimitMb jsOrNat
    simp [hm]
  · unfold effectiveMemoryLimitMb memoryLimitMb jsOrNat
    simp only [hm, if_false]
    have hle : (m + (1024 * 1024 - 1)) / (1024 * 1024) ≤ 8 := by omega
    exact Nat.max_eq_left hle

/-- Witness for the amended C9 at 4 MiB. -/
theorem memory_ceiling_amended_witness :
    (4194304 : Nat) ≠ 0 ∧ (4194304 : Nat) < 8 * 1024 * 1024 ∧
    effectiveMemoryLimitMb (some 4194304) = specMemoryCeilingMb 4194304 ∧
    effectiveMemoryLimitMb (some 4194304) = 8 ∧
    effectiveMemoryLimitMb (some 0) = 128 ∧
    effectiveMemoryLimitMb none = 128 :=
  ⟨by decide, by decide,
   (memory_ceiling_amended 4194304 (by decide)).1,
   (memory_ceiling_amended 4194304 (by decide)).2.1 (by decide),
   (memory_ceiling_amended 4194304 (by decide)).2.2.1,
   (memory_ceiling_amended 4194304 (by decide)).2.2.2⟩

/-- C10: falsy configuration values fall back to their defaults — a
timeout of 0 becomes 30000 ms and a `sandbox.maxMemory` of 0 becomes the
128 MiB default ceiling (not the 8 MiB floor) — while
`allowConsole: false` survives the `??` default and installs the no-op
console shim. -/
theorem falsy_options_take_defaults :
    (mkSandbox ⟨some 0, none⟩).timeout = 30000 ∧
    (mkSandbox ⟨none, some ⟨none, some 0⟩⟩).maxMemory = 128 * 1024 * 1024 ∧
    memoryLimitMb (mkSandbox ⟨none, some ⟨none, some 0⟩⟩).maxMemory = 128 ∧
    (mkSandbox ⟨none, some ⟨some false, none⟩⟩).allowConsole = false ∧
    consoleSetup (mkSandbox ⟨none, some ⟨some false, none⟩⟩).allowConsole = ConsoleMode.noop :=
  ⟨rfl, rfl, rfl, rfl, rfl⟩
